import Mathlib

/-!
Shallow embedding of the pricing engine of `stroskovnik`
(`src/manufacturing_calculator.py` and `src/utils.py`).

Real-valued quantities are modelled as rationals (`ℚ`); Python float
division by zero raises `ZeroDivisionError`, which is modelled by the
fallible functions returning `Option` (`none` = the call raises).
-/

namespace Stroskovnik

/-- The record returned by `calculate_price`
(`src/manufacturing_calculator.py`, lines 229-249). -/
structure PriceResult where
  machine_cost_per_piece : ℚ
  labor_cost_per_piece : ℚ
  material_cost_per_piece : ℚ
  additional_material_cost : ℚ
  direct_cost_per_piece : ℚ
  overhead_cost_per_piece : ℚ
  base_cost_per_piece : ℚ
  profit_per_piece : ℚ
  price_per_piece : ℚ
  total_batch_cost : ℚ
  machine_cost_percentage : ℚ
  material_cost_percentage : ℚ
  additional_material_cost_percentage : ℚ
  labor_cost_percentage : ℚ
  overhead_cost_percentage : ℚ
  base_cost_percentage : ℚ
  profit_percentage : ℚ
deriving DecidableEq, Repr

instance : Inhabited PriceResult :=
  ⟨⟨0, 0, 0, 0, 0, 0, 0, 0, 0, 0, 0, 0, 0, 0, 0, 0, 0⟩⟩

/-- The arithmetic body of `calculate_price`
(`src/manufacturing_calculator.py`, lines 194-249), with every field of
the returned dictionary.  In `ℚ` the percentage divisions are total
(`x / 0 = 0`); the zero-denominator case is cut off by the `Option`
wrapper `calculate_price` below, exactly where Python raises. -/
def priceCore (machine_cost_per_hour material_cost_per_unit production_time_minutes
    labor_cost_per_hour overhead_percentage profit_margin_percentage
    additional_material_cost : ℚ) (batch_size : ℤ) (include_labor_cost : Bool) :
    PriceResult :=
  let production_time_hours := production_time_minutes / 60
  let machine_cost_per_piece := machine_cost_per_hour * production_time_hours
  let labor_cost_per_piece :=
    if include_labor_cost then labor_cost_per_hour * production_time_hours else 0
  let material_cost_per_piece := material_cost_per_unit
  let direct_cost_per_piece :=
    machine_cost_per_piece + labor_cost_per_piece + material_cost_per_piece +
      additional_material_cost
  let overhead_cost_per_piece := direct_cost_per_piece * (overhead_percentage / 100)
  let base_cost_per_piece := direct_cost_per_piece + overhead_cost_per_piece
  let profit_per_piece := base_cost_per_piece * (profit_margin_percentage / 100)
  let price_per_piece := base_cost_per_piece + profit_per_piece
  let total_batch_cost := price_per_piece * (batch_size : ℚ)
  let total_cost := price_per_piece
  { machine_cost_per_piece := machine_cost_per_piece
    labor_cost_per_piece := labor_cost_per_piece
    material_cost_per_piece := material_cost_per_piece
    additional_material_cost := additional_material_cost
    direct_cost_per_piece := direct_cost_per_piece
    overhead_cost_per_piece := overhead_cost_per_piece
    base_cost_per_piece := base_cost_per_piece
    profit_per_piece := profit_per_piece
    price_per_piece := price_per_piece
    total_batch_cost := total_batch_cost
    machine_cost_percentage := machine_cost_per_piece / total_cost * 100
    material_cost_percentage := material_cost_per_piece / total_cost * 100
    additional_material_cost_percentage := additional_material_cost / total_cost * 100
    labor_cost_percentage := labor_cost_per_piece / total_cost * 100
    overhead_cost_percentage := overhead_cost_per_piece / total_cost * 100
    base_cost_percentage := base_cost_per_piece / total_cost * 100
    profit_percentage := profit_per_piece / total_cost * 100 }

/-- `calculate_price` (`src/manufacturing_calculator.py`, lines 154-249).
Python raises `ZeroDivisionError` at line 220 exactly when
`total_cost = price_per_piece` is zero; that case is `none`. -/
def calculate_price (machine_cost_per_hour material_cost_per_unit production_time_minutes
    labor_cost_per_hour overhead_percentage profit_margin_percentage
    additional_material_cost : ℚ) (batch_size : ℤ) (include_labor_cost : Bool) :
    Option PriceResult :=
  let r := priceCore machine_cost_per_hour material_cost_per_unit production_time_minutes
    labor_cost_per_hour overhead_percentage profit_margin_percentage
    additional_material_cost batch_size include_labor_cost
  if r.price_per_piece = 0 then none else some r

/-- `validate_inputs` (`src/utils.py`, lines 6-63): nested early returns,
translated check by check in source order. -/
def validate_inputs (machine_cost_per_hour material_cost_per_unit
    production_time_minutes labor_cost_per_hour overhead_percentage
    profit_margin_percentage : ℚ) (batch_size : ℤ) : Bool × String :=
  if machine_cost_per_hour < 0 then
    (false, "Machine cost per hour cannot be negative.")
  else if material_cost_per_unit < 0 then
    (false, "Material cost per unit cannot be negative.")
  else if production_time_minutes ≤ 0 then
    (false, "Production time must be greater than zero.")
  else if labor_cost_per_hour < 0 then
    (false, "Labor cost per hour cannot be negative.")
  else if overhead_percentage < 0 ∨ 100 < overhead_percentage then
    (false, "Overhead percentage must be between 0 and 100.")
  else if profit_margin_percentage < 0 ∨ 100 < profit_margin_percentage then
    (false, "Profit margin percentage must be between 0 and 100.")
  else if batch_size ≤ 0 then
    (false, "Batch size must be greater than zero.")
  else (true, "Inputs valid")

/-- The spec-level check list of §4.4, in source order: a condition that
fires together with its reason string. -/
def validationChecks (machine_cost_per_hour material_cost_per_unit
    production_time_minutes labor_cost_per_hour overhead_percentage
    profit_margin_percentage : ℚ) (batch_size : ℤ) : List (Bool × String) :=
  [(decide (machine_cost_per_hour < 0),
      "Machine cost per hour cannot be negative."),
   (decide (material_cost_per_unit < 0),
      "Material cost per unit cannot be negative."),
   (decide (production_time_minutes ≤ 0),
      "Production time must be greater than zero."),
   (decide (labor_cost_per_hour < 0),
      "Labor cost per hour cannot be negative."),
   (decide (overhead_percentage < 0 ∨ 100 < overhead_percentage),
      "Overhead percentage must be between 0 and 100."),
   (decide (profit_margin_percentage < 0 ∨ 100 < profit_margin_percentage),
      "Profit margin percentage must be between 0 and 100."),
   (decide (batch_size ≤ 0),
      "Batch size must be greater than zero.")]

/-- Short-circuiting evaluation of a check list: the first check whose
condition fires yields its reason; otherwise the success sentinel. -/
def firstFailure : List (Bool × String) → Bool × String
  | [] => (true, "Inputs valid")
  | c :: cs => if c.1 then (false, c.2) else firstFailure cs

/-- `{ r with total_batch_cost := 0 }`: the record with the only
batch-dependent field blanked, used to compare runs across batch sizes. -/
def eraseBatchTotal (r : PriceResult) : PriceResult :=
  { r with total_batch_cost := 0 }

/-- `sorted(material_discount_tiers.items())`
(`src/manufacturing_calculator.py`, line 74): the tier list in ascending
threshold order.  Dict keys are unique, so sorting pairs lexicographically
coincides with sorting by threshold. -/
def sortTiers (tiers : List (ℕ × ℚ)) : List (ℕ × ℚ) :=
  tiers.insertionSort (fun a b => a.1 ≤ b.1)

instance : IsTotal (ℕ × ℚ) (fun a b => a.1 ≤ b.1) :=
  ⟨fun a b => Nat.le_total a.1 b.1⟩

instance : IsTrans (ℕ × ℚ) (fun a b => a.1 ≤ b.1) :=
  ⟨fun _ _ _ => Nat.le_trans⟩

/-- Lines 71-76: the discount-resolution loop — iterate the sorted tiers
and keep overwriting `applied_discount` with each tier that the quantity
reaches. -/
def applied_discount (quantity : ℕ) (tiers : List (ℕ × ℚ)) : ℚ :=
  (sortTiers tiers).foldl (fun acc t => if t.1 ≤ quantity then t.2 else acc) 0

/-- Lines 70 and 78-80: the material cost after the resolved discount,
unchanged when the resolved discount is not positive. -/
def discountedMaterialCost (material_cost_per_unit : ℚ) (quantity : ℕ)
    (tiers : List (ℕ × ℚ)) : ℚ :=
  if 0 < applied_discount quantity tiers then
    material_cost_per_unit * (1 - applied_discount quantity tiers / 100)
  else material_cost_per_unit

/-- Spec-side formulation (§4.3 step 3): the discount of the *last* element
of the list whose threshold is ≤ the quantity (later entries take
precedence), `none` when no element qualifies. -/
def lastQualifying? (quantity : ℕ) : List (ℕ × ℚ) → Option ℚ
  | [] => none
  | t :: ts =>
    match lastQualifying? quantity ts with
    | some d => some d
    | none => if t.1 ≤ quantity then some t.2 else none

/-- Spec-side formulation: discount of the last qualifying tier in
ascending threshold order, 0 when none qualifies. -/
def lastQualifyingDiscount (quantity : ℕ) (tiers : List (ℕ × ℚ)) : ℚ :=
  (lastQualifying? quantity (sortTiers tiers)).getD 0

/-- The inputs of `calculate_multi_quantity_prices` other than the
quantity list (`src/manufacturing_calculator.py`, lines 3-16), in source
order.  `setup_cost_per_hour = none` models Python `None` (defaulted to
the machine rate at line 55); an absent tier dict is the empty list. -/
structure MultiInputs where
  machine_cost_per_hour : ℚ
  material_cost_per_unit : ℚ
  production_time_minutes : ℚ
  setup_time_minutes : ℚ
  setup_cost_per_hour : Option ℚ
  material_discount_tiers : List (ℕ × ℚ)
  overhead_percentage : ℚ
  profit_margin_percentage : ℚ
  additional_material_cost : ℚ
  include_labor_cost : Bool
  labor_cost_per_hour : ℚ
deriving DecidableEq, Repr

/-- The per-quantity record stored in the result dict (lines 100-107). -/
structure MultiQuantityEntry where
  price_per_piece : ℚ
  total_cost : ℚ
  setup_cost_per_piece : ℚ
  material_discount_percentage : ℚ
  discounted_material_cost : ℚ
  base_result : PriceResult
deriving DecidableEq, Repr

instance : Inhabited MultiQuantityEntry :=
  ⟨⟨0, 0, 0, 0, 0, default⟩⟩

/-- The body of the `for quantity in quantities` loop
(`src/manufacturing_calculator.py`, lines 63-107).  `none` models a
`ZeroDivisionError`: either `setup_cost / quantity` at line 67 with
quantity 0, or the percentage breakdown inside the nested
`calculate_price` call. -/
def multiQuantityEntry (a : MultiInputs) (quantity : ℕ) :
    Option MultiQuantityEntry :=
  let setup_cost_per_hour := a.setup_cost_per_hour.getD a.machine_cost_per_hour
  let setup_time_hours := a.setup_time_minutes / 60
  let setup_cost := setup_cost_per_hour * setup_time_hours
  if quantity = 0 then none
  else
    let setup_cost_per_piece := setup_cost / (quantity : ℚ)
    let discounted_material_cost :=
      discountedMaterialCost a.material_cost_per_unit quantity
        a.material_discount_tiers
    match calculate_price a.machine_cost_per_hour discounted_material_cost
        a.production_time_minutes a.labor_cost_per_hour a.overhead_percentage
        a.profit_margin_percentage a.additional_material_cost (quantity : ℤ)
        a.include_labor_cost with
    | none => none
    | some regular_result =>
      some { price_per_piece := regular_result.price_per_piece + setup_cost_per_piece
             total_cost :=
               (regular_result.price_per_piece + setup_cost_per_piece) * (quantity : ℚ)
             setup_cost_per_piece := setup_cost_per_piece
             material_discount_percentage :=
               applied_discount quantity a.material_discount_tiers
             discounted_material_cost := discounted_material_cost
             base_result := regular_result }

/-- Python dict assignment `results[quantity] = ...` (line 100): replace
the value in place if the key is present, append otherwise. -/
def dictInsert {α : Type} : List (ℕ × α) → ℕ → α → List (ℕ × α)
  | [], k, v => [(k, v)]
  | (k', v') :: rest, k, v =>
    if k = k' then (k, v) :: rest else (k', v') :: dictInsert rest k v

/-- Python dict read `d[k]`/`d.get(k)` on the association-list model. -/
def dictLookup {α : Type} (k : ℕ) : List (ℕ × α) → Option α
  | [] => none
  | (k', v) :: rest => if k = k' then some v else dictLookup k rest

/-- The `for quantity in quantities` loop (lines 61-109), threading the
`results` dict; any per-quantity `ZeroDivisionError` aborts the call. -/
def multiLoop (a : MultiInputs) :
    List ℕ → List (ℕ × MultiQuantityEntry) → Option (List (ℕ × MultiQuantityEntry))
  | [], results => some results
  | q :: qs, results =>
    match multiQuantityEntry a q with
    | none => none
    | some e => multiLoop a qs (dictInsert results q e)

/-- `calculate_multi_quantity_prices`
(`src/manufacturing_calculator.py`, lines 3-109). -/
def calculate_multi_quantity_prices (a : MultiInputs) (quantities : List ℕ) :
    Option (List (ℕ × MultiQuantityEntry)) :=
  multiLoop a quantities []

/-- The one-time setup cost of the multi-quantity engine (lines 54-55 and
65-66): resolved setup rate times setup hours. -/
def setupCost (a : MultiInputs) : ℚ :=
  a.setup_cost_per_hour.getD a.machine_cost_per_hour * (a.setup_time_minutes / 60)

/-- The entry built at lines 100-107 from the nested `calculate_price`
result, written as a function of that result. -/
def mkMultiEntry (a : MultiInputs) (quantity : ℕ) (r : PriceResult) :
    MultiQuantityEntry :=
  { price_per_piece := r.price_per_piece + setupCost a / (quantity : ℚ)
    total_cost := (r.price_per_piece + setupCost a / (quantity : ℚ)) * (quantity : ℚ)
    setup_cost_per_piece := setupCost a / (quantity : ℚ)
    material_discount_percentage :=
      applied_discount quantity a.material_discount_tiers
    discounted_material_cost :=
      discountedMaterialCost a.material_cost_per_unit quantity
        a.material_discount_tiers
    base_result := r }

/-- Record returned by `calculate_price` on the C7 example input, used to
instantiate hypotheses concretely. -/
def examplePriceResult : PriceResult :=
  (calculate_price 60 2 6 0 20 25 0 1 false).getD default

/-- The multi-quantity example inputs of the spec: machine 60/h,
material 2, 6 minutes per piece, 30 minutes setup, no separate setup
rate, no discount tiers, overhead 20 %, profit 25 %, labor excluded. -/
def exampleMultiInputs : MultiInputs :=
  ⟨60, 2, 6, 30, none, [], 20, 25, 0, false, 0⟩

/-- The same inputs with zero setup time (for the zero-setup-cost
counterexample). -/
def zeroSetupInputs : MultiInputs :=
  ⟨60, 2, 6, 0, none, [], 20, 25, 0, false, 0⟩

/-- The multi-quantity entry at quantity 10 of the example inputs. -/
def exampleMultiEntry : MultiQuantityEntry :=
  (multiQuantityEntry exampleMultiInputs 10).getD default

/-- The result dict of the example inputs for quantities `[10, 10, 20]`. -/
def exampleMultiDict : List (ℕ × MultiQuantityEntry) :=
  (calculate_multi_quantity_prices exampleMultiInputs [10, 10, 20]).getD []

/-- The multi-quantity entry at quantity 1 of the example inputs. -/
def exampleEntryQ1 : MultiQuantityEntry :=
  (multiQuantityEntry exampleMultiInputs 1).getD default

/-- The multi-quantity entry at quantity 2 of the example inputs. -/
def exampleEntryQ2 : MultiQuantityEntry :=
  (multiQuantityEntry exampleMultiInputs 2).getD default

/-- Inversion for `calculate_price`: a returned record is the `priceCore`
record, and its price (the percentage denominator) is nonzero. -/
lemma calculate_price_eq_some {m mat t l oh pm am : ℚ} {b : ℤ} {inc : Bool}
    {r : PriceResult} :
    calculate_price m mat t l oh pm am b inc = some r ↔
      (priceCore m mat t l oh pm am b inc).price_per_piece ≠ 0 ∧
        r = priceCore m mat t l oh pm am b inc := by
  simp only [calculate_price]
  split_ifs with h
  · simp [h]
  · simp [h, eq_comm]

/-- The discount-resolution fold computes the last qualifying element of
the list it scans (default: the accumulator). -/
lemma foldl_discount_eq (q : ℕ) :
    ∀ (l : List (ℕ × ℚ)) (acc : ℚ),
      l.foldl (fun a t => if t.1 ≤ q then t.2 else a) acc
        = (lastQualifying? q l).getD acc := by
  intro l
  induction l with
  | nil => intro acc; rfl
  | cons t ts ih =>
    intro acc
    rw [List.foldl_cons, ih]
    cases h : lastQualifying? q ts with
    | some d => simp [lastQualifying?, h]
    | none => by_cases hq : t.1 ≤ q <;> simp [lastQualifying?, h, hq]

/-- A fold over a list with no qualifying element keeps its accumulator. -/
lemma foldl_discount_no_qualify (q : ℕ) :
    ∀ (l : List (ℕ × ℚ)) (acc : ℚ), (∀ t ∈ l, ¬t.1 ≤ q) →
      l.foldl (fun a t => if t.1 ≤ q then t.2 else a) acc = acc := by
  intro l
  induction l with
  | nil => intro acc _; rfl
  | cons t ts ih =>
    intro acc h
    rw [List.foldl_cons, if_neg (h t (List.mem_cons_self t ts))]
    exact ih acc fun u hu => h u (List.mem_cons_of_mem t hu)

/-- `multiQuantityEntry` rephrased: guard on quantity 0, then map the
entry constructor over the nested `calculate_price` call. -/
lemma multiQuantityEntry_def (a : MultiInputs) (q : ℕ) :
    multiQuantityEntry a q = if q = 0 then none
      else (calculate_price a.machine_cost_per_hour
          (discountedMaterialCost a.material_cost_per_unit q
            a.material_discount_tiers)
          a.production_time_minutes a.labor_cost_per_hour a.overhead_percentage
          a.profit_margin_percentage a.additional_material_cost (q : ℤ)
          a.include_labor_cost).map (mkMultiEntry a q) := by
  simp only [multiQuantityEntry]
  split_ifs with h
  · rfl
  · cases hc : calculate_price a.machine_cost_per_hour
        (discountedMaterialCost a.material_cost_per_unit q
          a.material_discount_tiers)
        a.production_time_minutes a.labor_cost_per_hour a.overhead_percentage
        a.profit_margin_percentage a.additional_material_cost (q : ℤ)
        a.include_labor_cost with
    | none => rfl
    | some r => rfl

/-- Inversion for `multiQuantityEntry`. -/
lemma multiQuantityEntry_eq_some {a : MultiInputs} {q : ℕ}
    {e : MultiQuantityEntry} (h : multiQuantityEntry a q = some e) :
    q ≠ 0 ∧ ∃ r, calculate_price a.machine_cost_per_hour
        (discountedMaterialCost a.material_cost_per_unit q
          a.material_discount_tiers)
        a.production_time_minutes a.labor_cost_per_hour a.overhead_percentage
        a.profit_margin_percentage a.additional_material_cost (q : ℤ)
        a.include_labor_cost = some r ∧ e = mkMultiEntry a q r := by
  rw [multiQuantityEntry_def] at h
  split_ifs at h with hq
  rcases Option.map_eq_some'.mp h with ⟨r, hr, he⟩
  exact ⟨hq, r, hr, he.symm⟩

/-- Lookup after a dict assignment. -/
lemma dictLookup_dictInsert {α : Type} (d : List (ℕ × α)) (k k' : ℕ) (v : α) :
    dictLookup k' (dictInsert d k v)
      = if k' = k then some v else dictLookup k' d := by
  induction d with
  | nil => simp only [dictInsert, dictLookup]
  | cons p rest ih =>
    obtain ⟨k0, v0⟩ := p
    by_cases hk : k = k0
    · subst hk
      simp only [dictInsert, if_pos]
      simp only [dictLookup]
      by_cases h : k' = k <;> simp [h]
    · simp only [dictInsert]
      rw [if_neg hk]
      simp only [dictLookup, ih]
      by_cases h0 : k' = k0
      · subst h0
        have hne : ¬k' = k := fun hc => hk hc.symm
        simp [hne]
      · simp [h0]

/-- Key membership after a dict assignment. -/
lemma mem_keys_dictInsert {α : Type} (d : List (ℕ × α)) (k k' : ℕ) (v : α) :
    k' ∈ (dictInsert d k v).map Prod.fst ↔
      k' = k ∨ k' ∈ d.map Prod.fst := by
  induction d with
  | nil => simp [dictInsert]
  | cons p rest ih =>
    obtain ⟨k0, v0⟩ := p
    simp only [dictInsert]
    split_ifs with hk
    · subst hk
      simp [or_comm]
    · simp only [List.map_cons, List.mem_cons, ih]
      tauto

/-- Dict assignment preserves key distinctness. -/
lemma nodup_keys_dictInsert {α : Type} (d : List (ℕ × α)) (k : ℕ) (v : α)
    (h : (d.map Prod.fst).Nodup) : ((dictInsert d k v).map Prod.fst).Nodup := by
  induction d with
  | nil => simp [dictInsert]
  | cons p rest ih =>
    obtain ⟨k0, v0⟩ := p
    simp only [List.map_cons, List.nodup_cons] at h
    simp only [dictInsert]
    split_ifs with hk
    · subst hk
      simp only [List.map_cons, List.nodup_cons]
      exact h
    · simp only [List.map_cons, List.nodup_cons, mem_keys_dictInsert]
      refine ⟨fun hc => ?_, ih h.2⟩
      rcases hc with hc | hc
      · exact hk hc.symm
      · exact h.1 hc

/-- The result of the quantity loop, looked up at any key: the per-quantity
entry for requested quantities, the incoming accumulator otherwise. -/
lemma multiLoop_lookup (a : MultiInputs) :
    ∀ (qs : List ℕ) (acc d : List (ℕ × MultiQuantityEntry)),
      multiLoop a qs acc = some d → ∀ k,
        dictLookup k d
          = if k ∈ qs then multiQuantityEntry a k else dictLookup k acc := by
  intro qs
  induction qs with
  | nil =>
    intro acc d h k
    simp only [multiLoop, Option.some.injEq] at h
    subst h
    simp
  | cons q qs ih =>
    intro acc d h k
    simp only [multiLoop] at h
    cases hq : multiQuantityEntry a q with
    | none => rw [hq] at h; exact absurd h (by simp)
    | some e =>
      rw [hq] at h
      have hrec := ih (dictInsert acc q e) d h k
      rw [dictLookup_dictInsert] at hrec
      by_cases hk : k ∈ qs
      · rw [if_pos hk] at hrec
        rw [hrec, if_pos (List.mem_cons_of_mem q hk)]
      · rw [if_neg hk] at hrec
        by_cases hkq : k = q
        · subst hkq
          rw [hrec, if_pos rfl, if_pos (List.mem_cons_self k qs), hq]
        · rw [hrec, if_neg hkq, if_neg (by simp [hkq, hk])]

/-- Keys of the quantity-loop result: requested quantities plus keys
already in the accumulator, with distinctness preserved. -/
lemma multiLoop_keys (a : MultiInputs) :
    ∀ (qs : List ℕ) (acc d : List (ℕ × MultiQuantityEntry)),
      multiLoop a qs acc = some d →
        (∀ k, k ∈ d.map Prod.fst ↔ k ∈ qs ∨ k ∈ acc.map Prod.fst) ∧
        ((acc.map Prod.fst).Nodup → (d.map Prod.fst).Nodup) := by
  intro qs
  induction qs with
  | nil =>
    intro acc d h
    simp only [multiLoop, Option.some.injEq] at h
    subst h
    simp
  | cons q qs ih =>
    intro acc d h
    simp only [multiLoop] at h
    cases hq : multiQuantityEntry a q with
    | none => rw [hq] at h; exact absurd h (by simp)
    | some e =>
      rw [hq] at h
      obtain ⟨hmem, hnd⟩ := ih (dictInsert acc q e) d h
      constructor
      · intro k
        rw [hmem k, mem_keys_dictInsert]
        simp only [List.mem_cons]
        tauto
      · intro hacc
        exact hnd (nodup_keys_dictInsert acc q e hacc)

/-- If the quantity loop succeeds, every requested quantity has a defined
per-quantity entry. -/
lemma multiLoop_entry_isSome (a : MultiInputs) :
    ∀ (qs : List ℕ) (acc d : List (ℕ × MultiQuantityEntry)),
      multiLoop a qs acc = some d → ∀ q ∈ qs,
        (multiQuantityEntry a q).isSome := by
  intro qs
  induction qs with
  | nil => intro acc d _ q hq; exact absurd hq (by simp)
  | cons q0 qs ih =>
    intro acc d h q hq
    simp only [multiLoop] at h
    cases hq0 : multiQuantityEntry a q0 with
    | none => rw [hq0] at h; exact absurd h (by simp)
    | some e =>
      rw [hq0] at h
      rcases List.mem_cons.mp hq with rfl | hmem
      · simp [hq0]
      · exact ih (dictInsert acc q0 e) d h q hmem

/-- Two input bundles with identical per-quantity entries drive the
quantity loop identically. -/
lemma multiLoop_congr {a1 a2 : MultiInputs}
    (h : ∀ q, multiQuantityEntry a1 q = multiQuantityEntry a2 q) :
    ∀ (qs : List ℕ) (acc : List (ℕ × MultiQuantityEntry)),
      multiLoop a1 qs acc = multiLoop a2 qs acc := by
  intro qs
  induction qs with
  | nil => intro acc; rfl
  | cons q qs ih =>
    intro acc
    simp only [multiLoop, h q]
    cases multiQuantityEntry a2 q with
    | none => rfl
    | some e => exact ih (dictInsert acc q e)

end Stroskovnik

namespace Stroskovnik

/-- C7: the end-to-end single-quantity example of the spec: machine 60/h,
material 2, 6 minutes, overhead 20 %, profit 25 %, no additional material,
batch 1, labor not included separately. -/
theorem C7_single_quantity_example :
    (calculate_price 60 2 6 0 20 25 0 1 false).map PriceResult.machine_cost_per_piece
        = some 6 ∧
    (calculate_price 60 2 6 0 20 25 0 1 false).map PriceResult.direct_cost_per_piece
        = some 8 ∧
    (calculate_price 60 2 6 0 20 25 0 1 false).map PriceResult.overhead_cost_per_piece
        = some (8/5) ∧
    (calculate_price 60 2 6 0 20 25 0 1 false).map PriceResult.base_cost_per_piece
        = some (48/5) ∧
    (calculate_price 60 2 6 0 20 25 0 1 false).map PriceResult.profit_per_piece
        = some (12/5) ∧
    (calculate_price 60 2 6 0 20 25 0 1 false).map PriceResult.price_per_piece
        = some 12 := by
  refine ⟨?_, ?_, ?_, ?_, ?_, ?_⟩ <;> norm_num [calculate_price, priceCore]

/-- Six summands with a common nonzero denominator that together make up
the denominator sum to 100 %. -/
lemma percentage_sum_helper (x y z w u v P : ℚ) (hP : P ≠ 0)
    (hsum : x + y + z + w + u + v = P) :
    x / P * 100 + y / P * 100 + z / P * 100 + w / P * 100 + u / P * 100 +
      v / P * 100 = 100 := by
  subst hsum
  field_simp
  ring

/-- C1: whenever `calculate_price` returns a record with positive
`price_per_piece`, the six percentage fields (machine, labor, material,
additional material, overhead, profit — `base_cost_percentage` excluded)
sum to exactly 100 over the rationals. -/
theorem C1_six_percentages_sum_to_100 (m mat t l oh pm am : ℚ) (b : ℤ) (inc : Bool)
    (r : PriceResult) (h : calculate_price m mat t l oh pm am b inc = some r)
    (hpos : 0 < r.price_per_piece) :
    r.machine_cost_percentage + r.labor_cost_percentage + r.material_cost_percentage +
      r.additional_material_cost_percentage + r.overhead_cost_percentage +
      r.profit_percentage = 100 := by
  rcases calculate_price_eq_some.mp h with ⟨hne, rfl⟩
  simp only [priceCore] at hne ⊢
  exact percentage_sum_helper _ _ _ _ _ _ _ hne (by ring)

/-- Witness for C1 at the concrete example input. -/
theorem C1_six_percentages_sum_to_100_witness :
    calculate_price 60 2 6 0 20 25 0 1 false = some examplePriceResult ∧
    0 < examplePriceResult.price_per_piece ∧
    examplePriceResult.machine_cost_percentage +
      examplePriceResult.labor_cost_percentage +
      examplePriceResult.material_cost_percentage +
      examplePriceResult.additional_material_cost_percentage +
      examplePriceResult.overhead_cost_percentage +
      examplePriceResult.profit_percentage = 100 := by
  have h : calculate_price 60 2 6 0 20 25 0 1 false = some examplePriceResult := by
    norm_num [calculate_price, priceCore, examplePriceResult]
  have hpos : 0 < examplePriceResult.price_per_piece := by
    norm_num [calculate_price, priceCore, examplePriceResult]
  exact ⟨h, hpos, C1_six_percentages_sum_to_100 60 2 6 0 20 25 0 1 false
    examplePriceResult h hpos⟩

/-- C2 (evaluation at the failing input): the all-zero-cost input
machine=0, material=0, time=1, labor=0, overhead=0, profit=0,
additional=0, batch=1 passes `validate_inputs`, yet `calculate_price`
raises (`none`): the percentage breakdown divides by
`price_per_piece = 0` (ZeroDivisionError at line 220). -/
theorem C2_validated_zero_price_input_raises :
    validate_inputs 0 0 1 0 0 0 1 = (true, "Inputs valid") ∧
    calculate_price 0 0 1 0 0 0 0 1 false = none := by
  constructor
  · norm_num [validate_inputs]
  · norm_num [calculate_price, priceCore]

/-- C5: `validate_inputs` equals the short-circuiting first-failure scan of
the seven checks in source order; it returns the success sentinel iff all
seven conditions hold; the four spec-listed rejections each produce their
own reason; and the seven reason strings and the sentinel are pairwise
distinct. -/
theorem C5_validate_inputs_first_failure :
    (∀ (m mat t l oh pm : ℚ) (b : ℤ),
      validate_inputs m mat t l oh pm b
        = firstFailure (validationChecks m mat t l oh pm b)) ∧
    (∀ (m mat t l oh pm : ℚ) (b : ℤ),
      validate_inputs m mat t l oh pm b = (true, "Inputs valid") ↔
        (0 ≤ m ∧ 0 ≤ mat ∧ 0 < t ∧ 0 ≤ l ∧ 0 ≤ oh ∧ oh ≤ 100 ∧
          0 ≤ pm ∧ pm ≤ 100 ∧ 0 < b)) ∧
    validate_inputs (-1) 0 1 0 0 0 1
      = (false, "Machine cost per hour cannot be negative.") ∧
    validate_inputs 0 0 0 0 0 0 1
      = (false, "Production time must be greater than zero.") ∧
    validate_inputs 0 0 1 0 101 0 1
      = (false, "Overhead percentage must be between 0 and 100.") ∧
    validate_inputs 0 0 1 0 0 0 0
      = (false, "Batch size must be greater than zero.") ∧
    ["Machine cost per hour cannot be negative.",
     "Material cost per unit cannot be negative.",
     "Production time must be greater than zero.",
     "Labor cost per hour cannot be negative.",
     "Overhead percentage must be between 0 and 100.",
     "Profit margin percentage must be between 0 and 100.",
     "Batch size must be greater than zero.",
     "Inputs valid"].Nodup := by
  refine ⟨?_, ?_, ?_, ?_, ?_, ?_, ?_⟩
  · intro m mat t l oh pm b
    simp only [validate_inputs, validationChecks, firstFailure,
      decide_eq_true_eq]
  · intro m mat t l oh pm b
    simp only [validate_inputs]
    split_ifs with h1 h2 h3 h4 h5 h6 h7
    · constructor
      · intro hEq; simp at hEq
      · rintro ⟨hm, hmat, ht, hl, hoh, hoh2, hpm, hpm2, hb⟩
        exfalso; linarith
    · constructor
      · intro hEq; simp at hEq
      · rintro ⟨hm, hmat, ht, hl, hoh, hoh2, hpm, hpm2, hb⟩
        exfalso; linarith
    · constructor
      · intro hEq; simp at hEq
      · rintro ⟨hm, hmat, ht, hl, hoh, hoh2, hpm, hpm2, hb⟩
        exfalso; linarith
    · constructor
      · intro hEq; simp at hEq
      · rintro ⟨hm, hmat, ht, hl, hoh, hoh2, hpm, hpm2, hb⟩
        exfalso; linarith
    · constructor
      · intro hEq; simp at hEq
      · rintro ⟨hm, hmat, ht, hl, hoh, hoh2, hpm, hpm2, hb⟩
        exfalso; rcases h5 with h | h <;> linarith
    · constructor
      · intro hEq; simp at hEq
      · rintro ⟨hm, hmat, ht, hl, hoh, hoh2, hpm, hpm2, hb⟩
        exfalso; rcases h6 with h | h <;> linarith
    · constructor
      · intro hEq; simp at hEq
      · rintro ⟨hm, hmat, ht, hl, hoh, hoh2, hpm, hpm2, hb⟩
        exfalso; linarith
    · constructor
      · intro _
        push_neg at h1 h2 h3 h4 h5 h6 h7
        exact ⟨h1, h2, h3, h4, h5.1, h5.2, h6.1, h6.2, h7⟩
      · intro _; rfl
  · norm_num [validate_inputs]
  · norm_num [validate_inputs]
  · norm_num [validate_inputs]
  · norm_num [validate_inputs]
  · decide

/-- C8: batch size influences only `total_batch_cost`: for any two batch
sizes ≥ 1 the results agree on every other field (and on definedness), and
`total_batch_cost = price_per_piece * batch_size`. -/
theorem C8_batch_size_only_affects_total (m mat t l oh pm am : ℚ) (inc : Bool)
    (b1 b2 : ℤ) (_hb1 : 1 ≤ b1) (_hb2 : 1 ≤ b2) :
    (calculate_price m mat t l oh pm am b1 inc).map eraseBatchTotal
      = (calculate_price m mat t l oh pm am b2 inc).map eraseBatchTotal ∧
    (∀ r, calculate_price m mat t l oh pm am b1 inc = some r →
      r.total_batch_cost = r.price_per_piece * (b1 : ℚ)) := by
  constructor
  · simp only [calculate_price]
    have hpp : (priceCore m mat t l oh pm am b1 inc).price_per_piece
        = (priceCore m mat t l oh pm am b2 inc).price_per_piece := rfl
    rw [hpp]
    split_ifs with h
    · rfl
    · rfl
  · intro r hr
    rcases calculate_price_eq_some.mp hr with ⟨hne, rfl⟩
    rfl

/-- Witness for C8 at a concrete input with batch sizes 1 and 2. -/
theorem C8_batch_size_only_affects_total_witness :
    (1:ℤ) ≤ 1 ∧ (1:ℤ) ≤ 2 ∧
    ((calculate_price 60 2 6 0 20 25 0 1 false).map eraseBatchTotal
      = (calculate_price 60 2 6 0 20 25 0 2 false).map eraseBatchTotal) := by
  refine ⟨by norm_num, by norm_num, ?_⟩
  exact (C8_batch_size_only_affects_total 60 2 6 0 20 25 0 false 1 2
    (by norm_num) (by norm_num)).1

/-- C3: the discount loop resolves the last (highest) qualifying tier of
the ascending-sorted tier list, 0 when none qualifies or the tiers are
empty, in which case the material cost is unchanged; the sort is an
ascending-by-threshold permutation of the tiers; and for tiers
{10: 5, 50: 10, 100: 15} (in any presentation order) and quantity 75 the
applied discount is 10. -/
theorem C3_discount_resolution :
    (∀ (q : ℕ) (tiers : List (ℕ × ℚ)),
      applied_discount q tiers = lastQualifyingDiscount q tiers) ∧
    (∀ tiers : List (ℕ × ℚ),
      (sortTiers tiers).Sorted (fun a b => a.1 ≤ b.1) ∧
      List.Perm (sortTiers tiers) tiers) ∧
    (∀ (q : ℕ) (tiers : List (ℕ × ℚ)) (mat : ℚ),
      applied_discount q tiers = 0 → discountedMaterialCost mat q tiers = mat) ∧
    (∀ (q : ℕ) (tiers : List (ℕ × ℚ)) (mat : ℚ), (∀ t ∈ tiers, ¬t.1 ≤ q) →
      applied_discount q tiers = 0 ∧ discountedMaterialCost mat q tiers = mat) ∧
    (∀ (q : ℕ) (mat : ℚ),
      applied_discount q [] = 0 ∧ discountedMaterialCost mat q [] = mat) ∧
    applied_discount 75 [(10, 5), (50, 10), (100, 15)] = 10 ∧
    applied_discount 75 [(100, 15), (10, 5), (50, 10)] = 10 := by
  have hnoq : ∀ (q : ℕ) (tiers : List (ℕ × ℚ)), (∀ t ∈ tiers, ¬t.1 ≤ q) →
      applied_discount q tiers = 0 := by
    intro q tiers h
    refine foldl_discount_no_qualify q (sortTiers tiers) 0 ?_
    intro t ht
    exact h t ((List.perm_insertionSort _ tiers).mem_iff.mp ht)
  have hzero : ∀ (q : ℕ) (tiers : List (ℕ × ℚ)) (mat : ℚ),
      applied_discount q tiers = 0 → discountedMaterialCost mat q tiers = mat := by
    intro q tiers mat h
    simp [discountedMaterialCost, h]
  refine ⟨?_, ?_, hzero, ?_, ?_, ?_, ?_⟩
  · intro q tiers
    exact foldl_discount_eq q (sortTiers tiers) 0
  · intro tiers
    exact ⟨List.sorted_insertionSort _ tiers, List.perm_insertionSort _ tiers⟩
  · intro q tiers mat h
    exact ⟨hnoq q tiers h, hzero q tiers mat (hnoq q tiers h)⟩
  · intro q mat
    exact ⟨rfl, rfl⟩
  · decide
  · decide

/-- Witness for C3 at concrete inputs: empty tiers leave the material
cost unchanged, and the spec's example resolves to 10. -/
theorem C3_discount_resolution_witness :
    discountedMaterialCost 2 75 [] = 2 ∧
    applied_discount 75 [(10, 5), (50, 10), (100, 15)] = 10 :=
  ⟨C3_discount_resolution.2.2.1 75 [] 2 rfl,
   C3_discount_resolution.2.2.2.2.2.1⟩

/-- C4 (counterexample): with zero setup time the setup cost is 0, and
`setup_cost_per_piece` is 0 at both quantity 1 and quantity 2 — it does
not strictly decrease when the quantity grows, refuting the claim's
"strict decrease ... including setup cost zero". -/
theorem C4_counterexample_zero_setup :
    (multiQuantityEntry zeroSetupInputs 2).map MultiQuantityEntry.setup_cost_per_piece
      = (multiQuantityEntry zeroSetupInputs 1).map MultiQuantityEntry.setup_cost_per_piece ∧
    (multiQuantityEntry zeroSetupInputs 1).map MultiQuantityEntry.setup_cost_per_piece
      = some 0 := by
  constructor <;>
    norm_num [multiQuantityEntry, zeroSetupInputs, discountedMaterialCost,
      applied_discount, sortTiers, calculate_price, priceCore]

/-- C4 (amended): for fixed inputs with nonnegative setup cost,
`setup_cost_per_piece` is antitone in the quantity — strictly decreasing
whenever the setup cost is positive, and constantly 0 when the setup cost
is zero. -/
theorem C4_amended_setup_cost_antitone (a : MultiInputs) (q1 q2 : ℕ)
    (e1 e2 : MultiQuantityEntry) (_hq1 : 1 ≤ q1) (hlt : q1 < q2)
    (h1 : multiQuantityEntry a q1 = some e1)
    (h2 : multiQuantityEntry a q2 = some e2) :
    (0 ≤ setupCost a → e2.setup_cost_per_piece ≤ e1.setup_cost_per_piece) ∧
    (0 < setupCost a → e2.setup_cost_per_piece < e1.setup_cost_per_piece) ∧
    (setupCost a = 0 →
      e1.setup_cost_per_piece = 0 ∧ e2.setup_cost_per_piece = 0) := by
  rcases multiQuantityEntry_eq_some h1 with ⟨hq1ne, r1, hr1, he1⟩
  rcases multiQuantityEntry_eq_some h2 with ⟨hq2ne, r2, hr2, he2⟩
  have hs1 : e1.setup_cost_per_piece = setupCost a / (q1 : ℚ) := by
    rw [he1]; rfl
  have hs2 : e2.setup_cost_per_piece = setupCost a / (q2 : ℚ) := by
    rw [he2]; rfl
  have hp1 : (0 : ℚ) < (q1 : ℚ) := by
    exact_mod_cast Nat.pos_of_ne_zero hq1ne
  have hp2 : (0 : ℚ) < (q2 : ℚ) := by
    exact_mod_cast Nat.pos_of_ne_zero hq2ne
  have hcast : (q1 : ℚ) < (q2 : ℚ) := by exact_mod_cast hlt
  refine ⟨?_, ?_, ?_⟩
  · intro hS
    rw [hs1, hs2, div_le_div_iff₀ hp2 hp1]
    exact mul_le_mul_of_nonneg_left (le_of_lt hcast) hS
  · intro hS
    rw [hs1, hs2, div_lt_div_iff₀ hp2 hp1]
    exact mul_lt_mul_of_pos_left hcast hS
  · intro hS
    rw [hs1, hs2, hS, zero_div, zero_div]
    exact ⟨rfl, rfl⟩

/-- Witness for the amended C4 at the spec's example inputs (setup cost
30 > 0), quantities 1 and 2. -/
theorem C4_amended_setup_cost_antitone_witness :
    multiQuantityEntry exampleMultiInputs 1 = some exampleEntryQ1 ∧
    multiQuantityEntry exampleMultiInputs 2 = some exampleEntryQ2 ∧
    0 < setupCost exampleMultiInputs ∧
    exampleEntryQ2.setup_cost_per_piece < exampleEntryQ1.setup_cost_per_piece := by
  have h1 : multiQuantityEntry exampleMultiInputs 1 = some exampleEntryQ1 := by
    norm_num [multiQuantityEntry, exampleMultiInputs, exampleEntryQ1,
      discountedMaterialCost, applied_discount, sortTiers, calculate_price,
      priceCore]
  have h2 : multiQuantityEntry exampleMultiInputs 2 = some exampleEntryQ2 := by
    norm_num [multiQuantityEntry, exampleMultiInputs, exampleEntryQ2,
      discountedMaterialCost, applied_discount, sortTiers, calculate_price,
      priceCore]
  have hS : 0 < setupCost exampleMultiInputs := by
    norm_num [setupCost, exampleMultiInputs]
  exact ⟨h1, h2, hS,
    (C4_amended_setup_cost_antitone exampleMultiInputs 1 2 exampleEntryQ1
      exampleEntryQ2 (le_refl 1) (by norm_num) h1 h2).2.1 hS⟩

/-- C6: each multi-quantity entry decomposes as the single-quantity price
on the discounted material cost (batch = quantity) plus the amortized
setup cost, with `total_cost = price_per_piece * q`; at the spec's example
(setup 30 min, no tiers, quantity 10) the setup cost is 30,
`setup_cost_per_piece` is 3, `price_per_piece` is 15 and `total_cost` is
150. -/
theorem C6_multi_price_decomposition :
    (∀ (a : MultiInputs) (q : ℕ) (e : MultiQuantityEntry), 1 ≤ q →
      multiQuantityEntry a q = some e →
      (e.price_per_piece
          = e.base_result.price_per_piece + e.setup_cost_per_piece ∧
        e.total_cost = e.price_per_piece * (q : ℚ) ∧
        calculate_price a.machine_cost_per_hour e.discounted_material_cost
          a.production_time_minutes a.labor_cost_per_hour
          a.overhead_percentage a.profit_margin_percentage
          a.additional_material_cost (q : ℤ) a.include_labor_cost
          = some e.base_result)) ∧
    setupCost exampleMultiInputs = 30 ∧
    (multiQuantityEntry exampleMultiInputs 10).map
      MultiQuantityEntry.setup_cost_per_piece = some 3 ∧
    (multiQuantityEntry exampleMultiInputs 10).map
      MultiQuantityEntry.price_per_piece = some 15 ∧
    (multiQuantityEntry exampleMultiInputs 10).map
      MultiQuantityEntry.total_cost = some 150 := by
  refine ⟨?_, ?_, ?_, ?_, ?_⟩
  · intro a q e _ h
    rcases multiQuantityEntry_eq_some h with ⟨hq, r, hr, he⟩
    subst he
    exact ⟨rfl, rfl, hr⟩
  · norm_num [setupCost, exampleMultiInputs]
  all_goals
    norm_num [multiQuantityEntry, exampleMultiInputs, discountedMaterialCost,
      applied_discount, sortTiers, calculate_price, priceCore]

/-- Witness for C6 at the spec's example input and quantity 10. -/
theorem C6_multi_price_decomposition_witness :
    (1:ℕ) ≤ 10 ∧
    multiQuantityEntry exampleMultiInputs 10 = some exampleMultiEntry ∧
    exampleMultiEntry.price_per_piece
      = exampleMultiEntry.base_result.price_per_piece +
          exampleMultiEntry.setup_cost_per_piece := by
  have h : multiQuantityEntry exampleMultiInputs 10 = some exampleMultiEntry := by
    norm_num [multiQuantityEntry, exampleMultiInputs, exampleMultiEntry,
      discountedMaterialCost, applied_discount, sortTiers, calculate_price,
      priceCore]
  exact ⟨by norm_num, h,
    (C6_multi_price_decomposition.1 exampleMultiInputs 10 exampleMultiEntry
      (by norm_num) h).1⟩

/-- C9: with labor excluded (`include_labor_cost = false`) results do not
depend on `labor_cost_per_hour`: `calculate_price` returns identical
records for any two labor rates, with zero labor cost and zero labor
percentage, and `calculate_multi_quantity_prices` likewise returns
identical results. -/
theorem C9_labor_independent_when_excluded :
    (∀ (m mat t oh pm am : ℚ) (b : ℤ) (l1 l2 : ℚ),
      calculate_price m mat t l1 oh pm am b false
        = calculate_price m mat t l2 oh pm am b false) ∧
    (∀ (m mat t oh pm am : ℚ) (b : ℤ) (l : ℚ) (r : PriceResult),
      calculate_price m mat t l oh pm am b false = some r →
        r.labor_cost_per_piece = 0 ∧ r.labor_cost_percentage = 0) ∧
    (∀ (a : MultiInputs) (l1 l2 : ℚ) (qs : List ℕ),
      calculate_multi_quantity_prices
          { a with labor_cost_per_hour := l1, include_labor_cost := false } qs
        = calculate_multi_quantity_prices
          { a with labor_cost_per_hour := l2, include_labor_cost := false } qs) := by
  have hcp : ∀ (m mat t oh pm am : ℚ) (b : ℤ) (l1 l2 : ℚ),
      calculate_price m mat t l1 oh pm am b false
        = calculate_price m mat t l2 oh pm am b false := fun _ _ _ _ _ _ _ _ _ => rfl
  refine ⟨hcp, ?_, ?_⟩
  · intro m mat t oh pm am b l r h
    rcases calculate_price_eq_some.mp h with ⟨-, rfl⟩
    constructor
    · rfl
    · simp [priceCore]
  · intro a l1 l2 qs
    have hentry : ∀ q, multiQuantityEntry
          { a with labor_cost_per_hour := l1, include_labor_cost := false } q
        = multiQuantityEntry
          { a with labor_cost_per_hour := l2, include_labor_cost := false } q := by
      intro q
      rw [multiQuantityEntry_def, multiQuantityEntry_def]
      rfl
    exact multiLoop_congr hentry qs []

/-- Witness for C9 at the example input with labor rate 5 (excluded). -/
theorem C9_labor_independent_when_excluded_witness :
    calculate_price 60 2 6 5 20 25 0 1 false = some examplePriceResult ∧
    (examplePriceResult.labor_cost_per_piece = 0 ∧
      examplePriceResult.labor_cost_percentage = 0) := by
  have h : calculate_price 60 2 6 5 20 25 0 1 false = some examplePriceResult := by
    norm_num [calculate_price, priceCore, examplePriceResult]
  exact ⟨h, C9_labor_independent_when_excluded.2.1 60 2 6 20 25 0 1 5
    examplePriceResult h⟩

/-- C10: a successful multi-quantity run returns a dict whose key set is
exactly the set of requested quantities (duplicates collapse, keys are
distinct), and each entry equals the per-quantity computation — also what
the run requesting that quantity alone returns. -/
theorem C10_result_mapping (a : MultiInputs) (qs : List ℕ)
    (d : List (ℕ × MultiQuantityEntry))
    (h : calculate_multi_quantity_prices a qs = some d) :
    (∀ k, k ∈ d.map Prod.fst ↔ k ∈ qs) ∧
    (d.map Prod.fst).Nodup ∧
    (∀ q, q ∈ qs → dictLookup q d = multiQuantityEntry a q ∧
      calculate_multi_quantity_prices a [q]
        = (multiQuantityEntry a q).map (fun e => [(q, e)])) := by
  have hloop : multiLoop a qs [] = some d := h
  obtain ⟨hmem, hnd⟩ := multiLoop_keys a qs [] d hloop
  refine ⟨?_, hnd (by simp), ?_⟩
  · intro k
    rw [hmem k]
    simp
  · intro q hq
    constructor
    · rw [multiLoop_lookup a qs [] d hloop q, if_pos hq]
    · have hsome := multiLoop_entry_isSome a qs [] d hloop q hq
      rcases Option.isSome_iff_exists.mp hsome with ⟨e, he⟩
      simp [calculate_multi_quantity_prices, multiLoop, he, dictInsert]

/-- Witness for C10: the example inputs with quantities `[10, 10, 20]`. -/
theorem C10_result_mapping_witness :
    calculate_multi_quantity_prices exampleMultiInputs [10, 10, 20]
      = some exampleMultiDict ∧
    dictLookup 10 exampleMultiDict
      = multiQuantityEntry exampleMultiInputs 10 := by
  have h : calculate_multi_quantity_prices exampleMultiInputs [10, 10, 20]
      = some exampleMultiDict := by
    norm_num [calculate_multi_quantity_prices, multiLoop, multiQuantityEntry,
      exampleMultiInputs, exampleMultiDict, discountedMaterialCost,
      applied_discount, sortTiers, calculate_price, priceCore, dictInsert]
  exact ⟨h,
    ((C10_result_mapping exampleMultiInputs [10, 10, 20] exampleMultiDict h).2.2
      10 (by simp)).1⟩

end Stroskovnik
